import Mathlib

/-!
Verification development for the schedule_modifier repository
(src/schedule.rs, src/app.rs, src/main.rs): the schedule-entry data
model, its text codec, the edit-session construction/validation
pipeline, the selectable-list navigation, and the backup-then-write
save protocol, shallowly embedded in Lean.

Modelling conventions:
  * Rust machine integers are Nat/Int with the type's range enforced at
    the parsing boundary (u8 parse rejects values > 255, etc.).
  * `chrono::DateTime<Utc>` is a (year, month, day, hour, minute)
    record; every instant the program constructs has second 0.  Its
    `Ord` (chronological) is the lexicographic order on those fields,
    which agrees with chrono on calendar-valid instants.
  * `chrono::Duration` is its whole-minute count (an Int): every
    duration the program constructs comes from `Duration::try_minutes`.
  * Fallible Rust code returns `Except ScheduleError`.
-/

/-- Equality of `Except` values is decidable when both components' is;
gives `decide` access to concrete results of the fallible operations. -/
instance exceptDecEq {ε α : Type} [DecidableEq ε] [DecidableEq α] :
    DecidableEq (Except ε α) := fun x y =>
  match x, y with
  | .ok a, .ok b =>
    if h : a = b then .isTrue (by rw [h])
    else .isFalse (by intro hc; cases hc; exact h rfl)
  | .error a, .error b =>
    if h : a = b then .isTrue (by rw [h])
    else .isFalse (by intro hc; cases hc; exact h rfl)
  | .ok _, .error _ => .isFalse (by intro hc; cases hc)
  | .error _, .ok _ => .isFalse (by intro hc; cases hc)

/-- schedule.rs `ScheduleError`: the closed error taxonomy, each variant
carrying its human-readable message (the `MissingFields` display is fixed). -/
inductive ScheduleError where
  | InvalidDate (msg : String)
  | InvalidTime (msg : String)
  | InvalidDuration (msg : String)
  | InvalidPriority (msg : String)
  | InvalidMode (msg : String)
  | MissingFields
deriving DecidableEq

/-- schedule.rs `SchedulingMode` (variant order as declared, which fixes
its derived `Ord`). -/
inductive SchedulingMode where
  | Common
  | Discretionary
  | Special
deriving DecidableEq

/-- schedule.rs `ScdDuration`: `Infinite` or `Finite` of a chrono
`Duration`, kept as its whole-minute count. -/
inductive ScdDuration where
  | Infinite
  | Finite (minutes : Int)
deriving DecidableEq

/-- `chrono::DateTime<Utc>` at minute resolution (the only instants the
program builds: parsed with `%Y%m%d %H:%M` or from y/m/d/h/min fields). -/
structure DateTimeUTC where
  year : Nat
  month : Nat
  day : Nat
  hour : Nat
  minute : Nat
deriving DecidableEq

/-- schedule.rs `ScheduleLine`, fields in declaration order (which fixes
the derived lexicographic `Ord`). -/
structure ScheduleLine where
  timestamp : DateTimeUTC
  duration : ScdDuration
  priority : Nat
  experiment : String
  scheduling_mode : SchedulingMode
  kwargs : List String
deriving DecidableEq

/-! ## Orderings (the derived Rust `Ord` instances) -/

/-- Total comparison on Nat, as Rust's `Ord` on unsigned integers. -/
def cmpN (a b : Nat) : Ordering :=
  if a < b then .lt else if b < a then .gt else .eq

/-- Total comparison on Int, as Rust's `Ord` on signed integers. -/
def cmpZ (a b : Int) : Ordering :=
  if a < b then .lt else if b < a then .gt else .eq

/-- Rust `Ord` for `char`/`String`: by code point (equals byte order of
UTF-8 for strings). -/
def cmpC (a b : Char) : Ordering := cmpN a.toNat b.toNat

/-- Lexicographic list comparison, as Rust's `Ord` on slices/`Vec`. -/
def cmpCharList : List Char → List Char → Ordering
  | [], [] => .eq
  | [], _ :: _ => .lt
  | _ :: _, [] => .gt
  | a :: as, b :: bs => (cmpC a b).then (cmpCharList as bs)

def cmpStr (a b : String) : Ordering := cmpCharList a.data b.data

def cmpStrList : List String → List String → Ordering
  | [], [] => .eq
  | [], _ :: _ => .lt
  | _ :: _, [] => .gt
  | a :: as, b :: bs => (cmpStr a b).then (cmpStrList as bs)

/-- Chronological order of `DateTime<Utc>`: lexicographic on the fields. -/
def DateTimeUTC.cmp (a b : DateTimeUTC) : Ordering :=
  (cmpN a.year b.year).then ((cmpN a.month b.month).then
    ((cmpN a.day b.day).then ((cmpN a.hour b.hour).then
      (cmpN a.minute b.minute))))

def DateTimeUTC.ltB (a b : DateTimeUTC) : Bool := a.cmp b == .lt

def DateTimeUTC.leB (a b : DateTimeUTC) : Bool := !(a.cmp b == .gt)

/-- Derived `Ord` of `ScdDuration`: `Infinite < Finite _`, durations by
length. -/
def ScdDuration.cmp : ScdDuration → ScdDuration → Ordering
  | .Infinite, .Infinite => .eq
  | .Infinite, .Finite _ => .lt
  | .Finite _, .Infinite => .gt
  | .Finite a, .Finite b => cmpZ a b

def SchedulingMode.idx : SchedulingMode → Nat
  | .Common => 0
  | .Discretionary => 1
  | .Special => 2

/-- Derived `Ord` of `SchedulingMode`: by variant order. -/
def SchedulingMode.cmp (a b : SchedulingMode) : Ordering := cmpN a.idx b.idx

/-- Derived `Ord` of `ScheduleLine`: lexicographic in field order. -/
def ScheduleLine.cmp (a b : ScheduleLine) : Ordering :=
  (a.timestamp.cmp b.timestamp).then ((a.duration.cmp b.duration).then
    ((cmpN a.priority b.priority).then ((cmpStr a.experiment b.experiment).then
      ((a.scheduling_mode.cmp b.scheduling_mode).then
        (cmpStrList a.kwargs b.kwargs)))))

def ScheduleLine.leB (a b : ScheduleLine) : Bool := !(a.cmp b == .gt)

/-! ## Decimal rendering and integer parsing -/

/-- One decimal digit as a character (`'9'` for arguments ≥ 9; only ever
applied below 10). -/
def digitChar : Nat → Char
  | 0 => '0' | 1 => '1' | 2 => '2' | 3 => '3' | 4 => '4'
  | 5 => '5' | 6 => '6' | 7 => '7' | 8 => '8' | _ => '9'

/-- ASCII decimal digit test (Rust `char::is_ascii_digit`). -/
def isDigitC (c : Char) : Bool := 48 ≤ c.toNat && c.toNat ≤ 57

/-- Fuel-driven digit expansion (structural, so the kernel can run it;
the fuel `n + 1` always suffices). -/
def natDigitsF : Nat → Nat → List Char
  | 0, _ => []
  | fuel + 1, n =>
    if n < 10 then [digitChar n]
    else natDigitsF fuel (n / 10) ++ [digitChar (n % 10)]

/-- The digits of `n` in order (Rust `Display` of an unsigned integer). -/
def natDigits (n : Nat) : List Char := natDigitsF (n + 1) n

def natRepr (n : Nat) : String := String.mk (natDigits n)

/-- Rust `Display` of an `i64`. -/
def intRepr (i : Int) : String :=
  if i < 0 then "-" ++ natRepr i.natAbs else natRepr i.natAbs

/-- Value of a digit character. -/
def charVal (c : Char) : Nat := c.toNat - 48

/-- The number a digit string denotes (most significant first). -/
def digitsToNat (cs : List Char) : Nat :=
  cs.foldl (fun a c => 10 * a + charVal c) 0

/-- A non-empty all-digit string parsed to its value, else `none`. -/
def parseNatDigits (cs : List Char) : Option Nat :=
  if cs ≠ [] ∧ cs.all isDigitC then some (digitsToNat cs) else none

/-- Rust `str::parse` at an unsigned type with maximum `max`: an optional
leading `+`, one or more ASCII digits, and the value must fit. -/
def parseUnsigned (max : Nat) (s : String) : Option Nat :=
  match s.data with
  | [] => none
  | c :: cs =>
    if c = '+' then
      (parseNatDigits cs).bind fun n => if n ≤ max then some n else none
    else
      (parseNatDigits (c :: cs)).bind fun n => if n ≤ max then some n else none

def parseU8 : String → Option Nat := parseUnsigned 255

def parseU16 : String → Option Nat := parseUnsigned 65535

/-- Rust `str::parse::<i64>`: optional sign, digits, i64 range. -/
def parseI64 (s : String) : Option Int :=
  match s.data with
  | [] => none
  | c :: cs =>
    if c = '-' then
      (parseNatDigits cs).bind fun n =>
        if (n : Int) ≤ 2 ^ 63 then some (-(n : Int)) else none
    else if c = '+' then
      (parseNatDigits cs).bind fun n =>
        if (n : Int) < 2 ^ 63 then some (n : Int) else none
    else
      (parseNatDigits (c :: cs)).bind fun n =>
        if (n : Int) < 2 ^ 63 then some (n : Int) else none

/-! ## Calendar -/

def isLeapYear (y : Nat) : Bool :=
  y % 4 == 0 && (y % 100 != 0 || y % 400 == 0)

def daysInMonth (y m : Nat) : Nat :=
  if m = 2 then (if isLeapYear y then 29 else 28)
  else if m = 4 ∨ m = 6 ∨ m = 9 ∨ m = 11 then 30
  else 31

/-- `chrono::NaiveDate::from_ymd_opt` succeeds exactly on these triples
(for the year range this program admits). -/
def validYMD (y m d : Nat) : Bool :=
  1 ≤ m && m ≤ 12 && 1 ≤ d && d ≤ daysInMonth y m

/-! ## schedule.rs: parsing helpers -/

/-- schedule.rs `parse_date`: `NaiveDate::parse_from_str(date, "%Y%m%d")`,
modelled on the canonical 8-digit form the program reads and writes
(4-digit year, zero-padded month and day, full-string match). -/
def parse_date (date : String) : Except ScheduleError (Nat × Nat × Nat) :=
  match date.data with
  | [c1, c2, c3, c4, c5, c6, c7, c8] =>
    if [c1, c2, c3, c4, c5, c6, c7, c8].all isDigitC then
      let y := digitsToNat [c1, c2, c3, c4]
      let m := digitsToNat [c5, c6]
      let d := digitsToNat [c7, c8]
      if validYMD y m d then .ok (y, m, d)
      else .error (.InvalidDate ("Expected YYYYMMDD, got " ++ date))
    else .error (.InvalidDate ("Expected YYYYMMDD, got " ++ date))
  | _ => .error (.InvalidDate ("Expected YYYYMMDD, got " ++ date))

/-- schedule.rs `parse_time`: `NaiveTime::parse_from_str(time, "%H:%M")`,
modelled on the canonical `HH:MM` form the program reads and writes. -/
def parse_time (time : String) : Except ScheduleError (Nat × Nat) :=
  match time.data with
  | [c1, c2, c3, c4, c5] =>
    if c3 = ':' ∧ [c1, c2, c4, c5].all isDigitC then
      let h := digitsToNat [c1, c2]
      let m := digitsToNat [c4, c5]
      if h ≤ 23 ∧ m ≤ 59 then .ok (h, m)
      else .error (.InvalidTime ("Expected HH:MM, got " ++ time))
    else .error (.InvalidTime ("Expected HH:MM, got " ++ time))
  | _ => .error (.InvalidTime ("Expected HH:MM, got " ++ time))

/-- `chrono::Duration::try_minutes`: `none` when the duration cannot be
represented (its millisecond count must fit in ±(2^63 − 1)). -/
def tryMinutes (m : Int) : Option Int :=
  if -(2 ^ 63 - 1) ≤ m * 60000 ∧ m * 60000 ≤ 2 ^ 63 - 1 then some m else none

/-- schedule.rs `parse_duration`: parse an i64 minute count, then
`Duration::try_minutes`; both failures yield the same message. -/
def parse_duration (dur : String) : Except ScheduleError Int :=
  match parseI64 dur with
  | none => .error (.InvalidDuration ("Expected minutes > 0, got " ++ dur))
  | some m =>
    match tryMinutes m with
    | none => .error (.InvalidDuration ("Expected minutes > 0, got " ++ dur))
    | some m => .ok m

/-- schedule.rs `impl TryFrom<&String> for ScdDuration`. -/
def ScdDuration.try_from (value : String) : Except ScheduleError ScdDuration :=
  if value = "-" then .ok .Infinite
  else
    match parse_duration value with
    | .error e => .error e
    | .ok dur =>
      if dur < 1 then
        .error (.InvalidDuration ("Expected minutes > 0, got " ++ value))
      else .ok (.Finite dur)

/-! ## schedule.rs: ScheduleLine construction, decoding, encoding -/

/-- Fixed-width decimal rendering (zero-padded to 2), as chrono's `%m`,
`%d`, `%H`, `%M`. -/
def pad2chars (n : Nat) : List Char := [digitChar (n / 10 % 10), digitChar (n % 10)]

/-- Fixed-width decimal rendering (zero-padded to 4), as chrono's `%Y`
for the years this program admits (< 10000). -/
def pad4chars (n : Nat) : List Char :=
  [digitChar (n / 1000 % 10), digitChar (n / 100 % 10),
   digitChar (n / 10 % 10), digitChar (n % 10)]

/-- `Display` of a `DateTime<Utc>` (used only inside an error message):
`YYYY-MM-DD HH:MM:SS UTC`. -/
def tsDisplay (t : DateTimeUTC) : String :=
  String.mk (pad4chars t.year ++ '-' :: pad2chars t.month ++ '-' :: pad2chars t.day
    ++ ' ' :: pad2chars t.hour ++ ':' :: pad2chars t.minute) ++ ":00 UTC"

/-- The lower bound `ScheduleLine::new` parses from `"20000101 00:00"`. -/
def lowBound : DateTimeUTC := ⟨2000, 1, 1, 0, 0⟩

/-- The upper bound `ScheduleLine::new` parses from `"20510101 00:00"`. -/
def highBound : DateTimeUTC := ⟨2051, 1, 1, 0, 0⟩

/-- Rust `Display` of a chrono `Duration` (used only inside an error
message): rendered here by its minute count. -/
def durDisplay (m : Int) : String := intRepr m

/-- schedule.rs `ScheduleLine::new`: the constructor's invariant checks,
in source order (timestamp bounds, then infinite/finite rule, then
priority bound), then the plain record. -/
def ScheduleLine.new (timestamp : DateTimeUTC) (duration : ScdDuration)
    (priority : Nat) (experiment : String) (scheduling_mode : SchedulingMode)
    (kwargs : List String) : Except ScheduleError ScheduleLine :=
  if timestamp.ltB lowBound || highBound.ltB timestamp then
    .error (.InvalidDate
      ("Expected date between years 2000 and 2049, got " ++ tsDisplay timestamp))
  else
    match duration with
    | .Infinite =>
      if priority > 0 then
        .error (.InvalidPriority "Cannot have priority > 0 for infinite schedule line")
      else if priority > 20 then
        .error (.InvalidPriority (natRepr priority ++ " > 20"))
      else .ok ⟨timestamp, duration, priority, experiment, scheduling_mode, kwargs⟩
    | .Finite dur =>
      if dur < 1 then
        .error (.InvalidDuration ("Expected positive duration, got " ++ durDisplay dur))
      else if priority > 20 then
        .error (.InvalidPriority (natRepr priority ++ " > 20"))
      else .ok ⟨timestamp, duration, priority, experiment, scheduling_mode, kwargs⟩

/-- Rust `str::split(' ')`: split at every single space; an empty input
yields one empty field, adjacent separators yield empty fields. -/
def splitSp : List Char → List (List Char)
  | [] => [[]]
  | c :: cs =>
    if c = ' ' then [] :: splitSp cs
    else
      match splitSp cs with
      | f :: rest => (c :: f) :: rest
      | [] => [[c]]

/-- schedule.rs `match fields[5].as_str()`. -/
def modeFromStr (s : String) : Option SchedulingMode :=
  if s = "common" then some .Common
  else if s = "discretionary" then some .Discretionary
  else if s = "special" then some .Special
  else none

/-- schedule.rs `try_from`'s `fields` vector: the line split on spaces. -/
def lineFields (value : String) : List String :=
  (splitSp value.data).map String.mk

/-- schedule.rs `impl TryFrom<&String> for ScheduleLine`: split on spaces,
check the field count, then (in source evaluation order) date, time,
priority parse, priority bound, mode, duration, and finally
`ScheduleLine::new`. -/
def ScheduleLine.try_from (value : String) : Except ScheduleError ScheduleLine :=
  if (lineFields value).length < 6 then .error .MissingFields
  else
    match parse_date ((lineFields value).getD 0 "") with
    | .error e => .error e
    | .ok (y, mo, d) =>
      match parse_time ((lineFields value).getD 1 "") with
      | .error e => .error e
      | .ok (h, mi) =>
        match parseU8 ((lineFields value).getD 3 "") with
        | none => .error (.InvalidPriority ((lineFields value).getD 3 ""))
        | some priority =>
          if priority > 20 then
            .error (.InvalidPriority ((lineFields value).getD 3 "" ++ " > 20"))
          else
            match modeFromStr ((lineFields value).getD 5 "") with
            | none => .error (.InvalidMode ((lineFields value).getD 5 ""))
            | some scheduling_mode =>
              match ScdDuration.try_from ((lineFields value).getD 2 "") with
              | .error e => .error e
              | .ok duration =>
                ScheduleLine.new ⟨y, mo, d, h, mi⟩ duration priority
                  ((lineFields value).getD 4 "") scheduling_mode
                  ((lineFields value).drop 6)

/-- The date half of `%Y%m%d %H:%M`. -/
def dateFieldChars (t : DateTimeUTC) : List Char :=
  pad4chars t.year ++ (pad2chars t.month ++ pad2chars t.day)

/-- The time half of `%Y%m%d %H:%M`. -/
def timeFieldChars (t : DateTimeUTC) : List Char :=
  pad2chars t.hour ++ ':' :: pad2chars t.minute

/-- chrono `timestamp.format("%Y%m%d %H:%M")`. -/
def tsFmtChars (t : DateTimeUTC) : List Char :=
  dateFieldChars t ++ ' ' :: timeFieldChars t

/-- `Display` of `ScdDuration`: `-` or the minute count. -/
def durFmtChars : ScdDuration → List Char
  | .Infinite => ['-']
  | .Finite m => (intRepr m).data

/-- `Display` of `SchedulingMode`: the lowercase token. -/
def modeFmtChars : SchedulingMode → List Char
  | .Common => "common".data
  | .Discretionary => "discretionary".data
  | .Special => "special".data

/-- schedule.rs `format`'s kwargs loop: each kwarg preceded by one space. -/
def kwargsChars : List String → List Char
  | [] => []
  | kw :: rest => ' ' :: (kw.data ++ kwargsChars rest)

/-- Rust `format!("{: <14}", s)`: pad on the right with spaces to
width 14. -/
def padTo14 (cs : List Char) : List Char :=
  cs ++ List.replicate (14 - cs.length) ' '

/-- schedule.rs `ScheduleLine::format`: the wire encoding of one line. -/
def ScheduleLine.format (line : ScheduleLine) : String :=
  String.mk (padTo14 (tsFmtChars line.timestamp)
    ++ ' ' :: (durFmtChars line.duration
    ++ ' ' :: ((natRepr line.priority).data
    ++ ' ' :: (line.experiment.data
    ++ ' ' :: (modeFmtChars line.scheduling_mode
    ++ kwargsChars line.kwargs)))))

/-! ## app.rs: selectable lists -/

/-- app.rs `CurrentlyEditing`: the edit-session field cursor. -/
inductive CurrentlyEditing where
  | Year
  | Month
  | Day
  | Hour
  | Minute
  | Duration
  | Priority
  | Experiment
  | SchedulingMode
  | Kwargs
  | Done
deriving DecidableEq

/-- app.rs `ExperimentList`: the task-option list; `ratatui::ListState`'s
cursor is its `Option Nat` selection (the scroll offset, untouched by the
claims, is not modelled). -/
structure ExperimentList where
  items : List String
  selected : Option Nat
deriving DecidableEq

/-- app.rs `ExperimentList::next`. -/
def ExperimentList.next (l : ExperimentList) : ExperimentList :=
  if l.items.length = 0 then { l with selected := none }
  else
    { l with selected := some (match l.selected with
        | some i => if i ≥ l.items.length - 1 then 0 else i + 1
        | none => 0) }

/-- app.rs `ExperimentList::previous`. -/
def ExperimentList.previous (l : ExperimentList) : ExperimentList :=
  if l.items.length = 0 then { l with selected := none }
  else
    { l with selected := some (match l.selected with
        | some i => if i = 0 then l.items.length - 1 else i - 1
        | none => 0) }

/-- app.rs `ExperimentList::first`. -/
def ExperimentList.first (l : ExperimentList) : ExperimentList :=
  if l.items.length = 0 then { l with selected := none }
  else { l with selected := some 0 }

/-- app.rs `ExperimentList::last`. -/
def ExperimentList.last (l : ExperimentList) : ExperimentList :=
  if l.items.length = 0 then { l with selected := none }
  else { l with selected := some (l.items.length - 1) }

/-- app.rs `ModeList`: the mode-option list. -/
structure ModeList where
  modes : List SchedulingMode
  selected : Option Nat
deriving DecidableEq

/-- app.rs `ModeList::next` (note: no branch for the empty list beyond
falling through, so the selection is left as it was). -/
def ModeList.next (l : ModeList) : ModeList :=
  if l.modes.length > 0 then
    { l with selected := some (match l.selected with
        | some i => if i ≥ l.modes.length - 1 then 0 else i + 1
        | none => 0) }
  else l

/-- app.rs `ModeList::previous`. -/
def ModeList.previous (l : ModeList) : ModeList :=
  if l.modes.length > 0 then
    { l with selected := some (match l.selected with
        | some i => if i = 0 then l.modes.length - 1 else i - 1
        | none => 0) }
  else l

/-- app.rs `ModeList::first`. -/
def ModeList.first (l : ModeList) : ModeList :=
  if l.modes.length > 0 then { l with selected := some 0 } else l

/-- app.rs `ModeList::last`. -/
def ModeList.last (l : ModeList) : ModeList :=
  if l.modes.length > 0 then { l with selected := some (l.modes.length - 1) } else l

/-- app.rs `ScheduleList`: the live entry list. -/
structure ScheduleList where
  lines : List ScheduleLine
  selected : Option Nat
deriving DecidableEq

/-- app.rs `ScheduleList::next`. -/
def ScheduleList.next (l : ScheduleList) : ScheduleList :=
  if l.lines.length = 0 then { l with selected := none }
  else
    { l with selected := some (match l.selected with
        | some i => if i ≥ l.lines.length - 1 then 0 else i + 1
        | none => 0) }

/-- app.rs `ScheduleList::previous`. -/
def ScheduleList.previous (l : ScheduleList) : ScheduleList :=
  if l.lines.length = 0 then { l with selected := none }
  else
    { l with selected := some (match l.selected with
        | some i => if i = 0 then l.lines.length - 1 else i - 1
        | none => 0) }

/-- app.rs `ScheduleList::first`. -/
def ScheduleList.first (l : ScheduleList) : ScheduleList :=
  if l.lines.length = 0 then { l with selected := none }
  else { l with selected := some 0 }

/-- app.rs `ScheduleList::last`. -/
def ScheduleList.last (l : ScheduleList) : ScheduleList :=
  if l.lines.length = 0 then { l with selected := none }
  else { l with selected := some (l.lines.length - 1) }

/-! ## app.rs: the session state and entry construction -/

/-- app.rs `App` (the fields the verified pipeline touches; the screen
tag and file path carry no invariants used by the claims). -/
structure App where
  year_input : String
  month_input : String
  day_input : String
  hour_input : String
  minute_input : String
  duration_input : String
  priority_input : String
  experiment_list : ExperimentList
  mode_list : ModeList
  kwarg_input : String
  schedule_list : ScheduleList
  currently_editing : Option CurrentlyEditing
  last_err : Option ScheduleError
  additions : List ScheduleLine
  deletions : List ScheduleLine
deriving DecidableEq

/-- app.rs `App::create_line_from_inputs` lines 409-416: `"-"` sets the
source's `is_infinite` flag (with a default `duration`), anything else
is `parse_duration`d with no further check.  The `(duration,
is_infinite)` pair of the source is represented as the `ScdDuration` it
stands for (`Infinite` exactly when the flag is set). -/
def durationFromInput (s : String) : Except ScheduleError ScdDuration :=
  if s = "-" then .ok .Infinite
  else
    match parse_duration s with
    | .error e => .error e
    | .ok m => .ok (.Finite m)

/-- app.rs `App::create_line_from_inputs`, in source order: year parse,
year range, month parse, month range, day parse, day range, hour parse,
hour range, minute parse, minute range, `NaiveDate::from_ymd_opt`,
`and_hms_opt`, duration (via `durationFromInput`), priority parse,
priority bound; the task/mode selections are read with defaults and
never validated.  An out-of-bounds selection index (which would panic
in Rust) is read with `List.getD`; the theorems below only use
in-bounds or empty selections. -/
def App.create_line_from_inputs (app : App) : Except ScheduleError ScheduleLine :=
  match parseU16 app.year_input with
  | none => .error (.InvalidDate ("Bad year: " ++ app.year_input))
  | some year =>
    if year < 2000 ∨ year > 2050 then
      .error (.InvalidDate ("Bad year: " ++ natRepr year ++ " not in range [2000, 2050]"))
    else
      match parseU8 app.month_input with
      | none => .error (.InvalidDate ("Bad month: " ++ app.month_input))
      | some month =>
        if month = 0 ∨ month > 12 then
          .error (.InvalidDate ("Bad month: " ++ natRepr month ++ " not in range [1, 12]"))
        else
          match parseU8 app.day_input with
          | none => .error (.InvalidDate ("Bad day: " ++ app.day_input))
          | some day =>
            if day = 0 ∨ day > 31 then
              .error (.InvalidDate ("Bad day: " ++ natRepr day ++ " not in range [1, 31]"))
            else
              match parseU8 app.hour_input with
              | none => .error (.InvalidTime ("Bad hour: " ++ app.hour_input))
              | some hour =>
                if hour > 23 then
                  .error (.InvalidTime ("Bad hour: " ++ natRepr hour ++ " not in range [0, 23]"))
                else
                  match parseU8 app.minute_input with
                  | none => .error (.InvalidTime ("Bad minute: " ++ app.minute_input))
                  | some minute =>
                    if minute > 59 then
                      .error (.InvalidTime ("Bad minute: " ++ natRepr minute ++ " not in range [0, 59]"))
                    else
                      if ¬ validYMD year month day then
                        .error (.InvalidDate (natRepr year ++ natRepr month ++ natRepr day))
                      else
                        if ¬ (hour ≤ 23 ∧ minute ≤ 59) then
                          .error (.InvalidTime (natRepr hour ++ ":" ++ natRepr minute))
                        else
                          match durationFromInput app.duration_input with
                          | .error e => .error e
                          | .ok duration =>
                            match parseU8 app.priority_input with
                            | none => .error (.InvalidPriority app.priority_input)
                            | some priority =>
                              if priority > 20 then
                                .error (.InvalidPriority (natRepr priority ++ " > 20"))
                              else
                                .ok ⟨⟨year, month, day, hour, minute⟩, duration, priority,
                                  (match app.experiment_list.selected with
                                   | some i => app.experiment_list.items.getD i ""
                                   | none => "normalscan"),
                                  (match app.mode_list.selected with
                                   | some i => app.mode_list.modes.getD i .Common
                                   | none => .Common),
                                  (splitSp app.kwarg_input.data).map String.mk⟩

/-! ## app.rs: saving an entry, and main.rs's submit handling -/

/-- Sorted insertion by the derived ascending `Ord` of `ScheduleLine`. -/
def insertLine (x : ScheduleLine) : List ScheduleLine → List ScheduleLine
  | [] => [x]
  | y :: ys => if x.leB y then x :: y :: ys else y :: insertLine x ys

/-- `Vec::sort` by the derived `Ord` (ascending).  The derived order is
antisymmetric up to structural equality, so any correct sort produces
the same list; insertion sort is used here. -/
def sortLines (l : List ScheduleLine) : List ScheduleLine := l.foldr insertLine []

/-- app.rs `App::save_entry`: on construction failure record the error
and return it (nothing else changes); on success push to the additions
ledger, clear the error, push to the live list, sort ascending, reverse
to descending, and clear every text buffer. -/
def App.save_entry (app : App) : App × Except ScheduleError Unit :=
  match app.create_line_from_inputs with
  | .error e => ({ app with last_err := some e }, .error e)
  | .ok new_line =>
    ({ app with
        additions := app.additions ++ [new_line]
        last_err := none
        schedule_list := { app.schedule_list with
          lines := (sortLines (app.schedule_list.lines ++ [new_line])).reverse }
        year_input := ""
        month_input := ""
        day_input := ""
        hour_input := ""
        minute_input := ""
        duration_input := ""
        priority_input := ""
        kwarg_input := "" },
     .ok ())

/-- Rust `str::contains(pat)`: some substring position matches. -/
def containsSub (s pat : String) : Bool :=
  (List.range (s.data.length + 1)).any fun i => pat.data.isPrefixOf (s.data.drop i)

/-- main.rs `run_app`, the `Err(e)` arm of the `Done`+Enter handler: the
error-to-field routing by kind and message substring; the wildcard arm
(`MissingFields`) leaves the cursor unchanged. -/
def routeError (cur : Option CurrentlyEditing) (e : ScheduleError) :
    Option CurrentlyEditing :=
  match e with
  | .InvalidDate s =>
    if containsSub s "day" then some .Day
    else if containsSub s "month" then some .Month
    else some .Year
  | .InvalidTime s =>
    if containsSub s "minute" then some .Minute else some .Hour
  | .InvalidDuration _ => some .Duration
  | .InvalidPriority _ => some .Priority
  | .InvalidMode _ => some .SchedulingMode
  | .MissingFields => cur

/-- main.rs `run_app`, Enter pressed while the cursor is `Done`:
`save_entry`, then on success leave the edit session, on failure route
the cursor to the implicated field. -/
def App.submit (app : App) : App :=
  match app.save_entry with
  | (app', .ok _) => { app' with currently_editing := none }
  | (app', .error e) => { app' with currently_editing := routeError app'.currently_editing e }

/-! ## app.rs: persistence (`save_schedule`) over a file-system model -/

/-- The slice of the file system `save_schedule` touches: the schedule
file and its sibling backup (`set_extension("scd.bak")` of the same
path), `none` when absent, plus whether each path rejects writes
(modelling the I/O failures of `std::fs`). -/
structure FileSystem where
  scd : Option String
  bak : Option String
  scdReadOnly : Bool
  bakReadOnly : Bool
deriving DecidableEq

/-- `std::fs::copy(&self.scd_path, backup_file)`: fails when the source
is missing or the destination is not writable, otherwise duplicates the
source's bytes at the backup path. -/
def fsCopy (fs : FileSystem) : Except String FileSystem :=
  match fs.scd with
  | none => .error "No such file or directory"
  | some content =>
    if fs.bakReadOnly then .error "Permission denied"
    else .ok { fs with bak := some content }

/-- The bytes `save_schedule`'s write loop produces: the in-memory list
reversed (descending → ascending), each line encoded and
newline-terminated. -/
def renderSchedule (lines : List ScheduleLine) : String :=
  lines.reverse.foldl (fun acc l => acc ++ l.format ++ "\n") ""

/-- `File::create(&self.scd_path)` followed by the write loop: fails
when the target is not writable, otherwise truncates and writes. -/
def fsWriteSchedule (lines : List ScheduleLine) (fs : FileSystem) :
    Except String FileSystem :=
  if fs.scdReadOnly then .error "Permission denied"
  else .ok { fs with scd := some (renderSchedule lines) }

/-- app.rs `App::save_schedule`: copy the existing file to the backup
path first (`?` aborts on failure, leaving the file system as it was),
then overwrite the schedule file.  Returned alongside the file system
so an aborted save shows its (unchanged) state. -/
def App.save_schedule (app : App) (fs : FileSystem) :
    FileSystem × Except String Unit :=
  match fsCopy fs with
  | .error e => (fs, .error e)
  | .ok fs1 =>
    match fsWriteSchedule app.schedule_list.lines fs1 with
    | .error e => (fs1, .error e)
    | .ok fs2 => (fs2, .ok ())

/-! ## Ordering lemmas -/

def isOkE : Except ScheduleError ScheduleLine → Bool
  | .ok _ => true
  | .error _ => false

/-- The non-timestamp checks of `ScheduleLine::new`: an infinite line must
have priority 0, a finite duration must be positive, and the priority must
not exceed 20 (everything the constructor tests after the date range). -/
def newOtherChecks : ScdDuration → Nat → Bool
  | .Infinite, p => decide (p = 0) && decide (p ≤ 20)
  | .Finite m, p => decide (1 ≤ m) && decide (p ≤ 20)

theorem ord_then_swap (o p : Ordering) : (o.then p).swap = o.swap.then p.swap := by
  cases o <;> rfl

theorem cmpN_swap (a b : Nat) : cmpN b a = (cmpN a b).swap := by
  unfold cmpN
  rcases Nat.lt_trichotomy a b with h | h | h
  · simp [h, Nat.lt_asymm h]
    rfl
  · simp [h, Nat.lt_irrefl]
    rfl
  · simp [h, Nat.lt_asymm h]
    rfl

theorem cmpZ_swap (a b : Int) : cmpZ b a = (cmpZ a b).swap := by
  unfold cmpZ
  rcases lt_trichotomy a b with h | h | h
  · simp [h, not_lt_of_lt h]
    rfl
  · simp [h, lt_irrefl]
    rfl
  · simp [h, not_lt_of_lt h]
    rfl

theorem tsCmp_swap (a b : DateTimeUTC) : b.cmp a = (a.cmp b).swap := by
  unfold DateTimeUTC.cmp
  rw [cmpN_swap a.year, cmpN_swap a.month, cmpN_swap a.day, cmpN_swap a.hour,
    cmpN_swap a.minute, ord_then_swap, ord_then_swap, ord_then_swap, ord_then_swap]

theorem tsLeB_not_ltB (a b : DateTimeUTC) : a.leB b = ! b.ltB a := by
  unfold DateTimeUTC.leB DateTimeUTC.ltB
  rw [tsCmp_swap b a]
  cases b.cmp a <;> rfl

theorem ts_year_bounds (ts : DateTimeUTC) (h1 : ts.ltB lowBound = false)
    (h2 : highBound.ltB ts = false) : 2000 ≤ ts.year ∧ ts.year ≤ 2051 := by
  constructor
  · by_contra h
    have hy : cmpN ts.year 2000 = .lt := by unfold cmpN; rw [if_pos (by omega)]
    have : ts.cmp lowBound = .lt := by
      unfold DateTimeUTC.cmp; rw [show lowBound.year = 2000 from rfl, hy]; rfl
    rw [DateTimeUTC.ltB, this] at h1
    exact absurd h1 (by decide)
  · by_contra h
    have hy : cmpN 2051 ts.year = .lt := by unfold cmpN; rw [if_pos (by omega)]
    have : highBound.cmp ts = .lt := by
      unfold DateTimeUTC.cmp; rw [show highBound.year = 2051 from rfl, hy]; rfl
    rw [DateTimeUTC.ltB, this] at h2
    exact absurd h2 (by decide)

theorem cmpC_swap (a b : Char) : cmpC b a = (cmpC a b).swap := by
  unfold cmpC; exact cmpN_swap _ _

theorem cmpCharList_swap (a b : List Char) : cmpCharList b a = (cmpCharList a b).swap := by
  induction a generalizing b with
  | nil => cases b <;> rfl
  | cons x xs ih =>
    cases b with
    | nil => rfl
    | cons y ys =>
      show (cmpC y x).then (cmpCharList ys xs) = ((cmpC x y).then (cmpCharList xs ys)).swap
      rw [cmpC_swap y x, ord_then_swap, ih ys]
      rw [Ordering.swap_swap]

theorem cmpStr_swap (a b : String) : cmpStr b a = (cmpStr a b).swap := by
  unfold cmpStr; exact cmpCharList_swap _ _

theorem cmpStrList_swap (a b : List String) : cmpStrList b a = (cmpStrList a b).swap := by
  induction a generalizing b with
  | nil => cases b <;> rfl
  | cons x xs ih =>
    cases b with
    | nil => rfl
    | cons y ys =>
      show (cmpStr y x).then (cmpStrList ys xs) = ((cmpStr x y).then (cmpStrList xs ys)).swap
      rw [cmpStr_swap y x, ord_then_swap, ih ys, Ordering.swap_swap]

theorem durCmp_swap (a b : ScdDuration) : b.cmp a = (a.cmp b).swap := by
  cases a <;> cases b <;> first | rfl | exact cmpZ_swap _ _

theorem modeCmp_swap (a b : SchedulingMode) : b.cmp a = (a.cmp b).swap := by
  unfold SchedulingMode.cmp; exact cmpN_swap _ _

theorem lineCmp_swap (a b : ScheduleLine) : b.cmp a = (a.cmp b).swap := by
  unfold ScheduleLine.cmp
  rw [tsCmp_swap, durCmp_swap, cmpN_swap, cmpStr_swap, modeCmp_swap, cmpStrList_swap,
    ord_then_swap, ord_then_swap, ord_then_swap, ord_then_swap, ord_then_swap]

theorem lineLeB_total (a b : ScheduleLine) : a.leB b = true ∨ b.leB a = true := by
  unfold ScheduleLine.leB
  rw [lineCmp_swap a b]
  cases a.cmp b <;> decide

theorem leB_timestamp (a b : ScheduleLine) (h : a.leB b = true) :
    a.timestamp.leB b.timestamp = true := by
  unfold ScheduleLine.leB ScheduleLine.cmp at h
  unfold DateTimeUTC.leB
  cases hc : a.timestamp.cmp b.timestamp
  · rfl
  · rfl
  · rw [hc] at h
    simp [Ordering.then] at h
    exact absurd h (by decide)

/-- Claim C6: with all other fields valid (any duration and priority that
pass the constructor checks after the date range, and any task, mode and
kwargs), `ScheduleLine::new` succeeds — returning exactly the given
fields — if and only if the timestamp lies in the closed interval
from 2000-01-01T00:00 to 2051-01-01T00:00, and for every timestamp outside
that interval it is rejected with the `InvalidDate` error. -/
theorem c6_date_bounds (ts : DateTimeUTC) (d : ScdDuration) (p : Nat)
    (task : String) (mode : SchedulingMode) (kwargs : List String)
    (hv : newOtherChecks d p = true) :
    (ScheduleLine.new ts d p task mode kwargs =
        .ok ⟨ts, d, p, task, mode, kwargs⟩ ↔
      (lowBound.leB ts && ts.leB highBound) = true) ∧
    ((lowBound.leB ts && ts.leB highBound) = false →
      ScheduleLine.new ts d p task mode kwargs =
        .error (.InvalidDate
          ("Expected date between years 2000 and 2049, got " ++ tsDisplay ts))) := by
  rw [tsLeB_not_ltB lowBound ts, tsLeB_not_ltB ts highBound]
  unfold ScheduleLine.new
  cases h1 : ts.ltB lowBound with
  | true =>
    rw [if_pos (by simp)]
    exact ⟨⟨fun h => Except.noConfusion h, fun h => absurd h (by simp)⟩, fun _ => rfl⟩
  | false =>
    cases h2 : highBound.ltB ts with
    | true =>
      rw [if_pos (by simp)]
      exact ⟨⟨fun h => Except.noConfusion h, fun h => absurd h (by decide)⟩, fun _ => rfl⟩
    | false =>
      rw [if_neg (by decide)]
      cases d with
      | Infinite =>
        simp only [newOtherChecks, Bool.and_eq_true, decide_eq_true_eq] at hv
        obtain ⟨hp0, -⟩ := hv
        subst hp0
        simp only []
        rw [if_neg (by decide), if_neg (by decide)]
        exact ⟨⟨fun _ => rfl, fun _ => rfl⟩, fun h => absurd h (by decide)⟩
      | Finite m =>
        simp only [newOtherChecks, Bool.and_eq_true, decide_eq_true_eq] at hv
        obtain ⟨hm, hp20⟩ := hv
        simp only []
        rw [if_neg (by omega), if_neg (by omega)]
        exact ⟨⟨fun _ => rfl, fun _ => rfl⟩, fun h => absurd h (by decide)⟩

theorem c6_check :
    ScheduleLine.new ⟨2050, 12, 31, 23, 59⟩ (.Finite 1) 0 "normalscan" .Common [] =
      .ok ⟨⟨2050, 12, 31, 23, 59⟩, .Finite 1, 0, "normalscan", .Common, []⟩ ∧
    ScheduleLine.new ⟨1999, 12, 31, 23, 59⟩ (.Finite 1) 0 "normalscan" .Common [] =
      .error (.InvalidDate
        ("Expected date between years 2000 and 2049, got "
          ++ tsDisplay ⟨1999, 12, 31, 23, 59⟩)) :=
  ⟨(c6_date_bounds ⟨2050, 12, 31, 23, 59⟩ (.Finite 1) 0 "normalscan" .Common []
      (by decide)).1.mpr (by decide),
   (c6_date_bounds ⟨1999, 12, 31, 23, 59⟩ (.Finite 1) 0 "normalscan" .Common []
      (by decide)).2 (by decide)⟩

theorem c6_cex :
    ScheduleLine.new ⟨2051, 1, 1, 0, 0⟩ (.Finite 1) 0 "normalscan" .Common [] =
      .ok ⟨⟨2051, 1, 1, 0, 0⟩, .Finite 1, 0, "normalscan", .Common, []⟩ := by
  decide

/-- Claim C7: for every timestamp in the accepted date range and every
task, mode and kwargs, constructing an infinite-duration entry with
priority at least 1 fails with the infinite-line `InvalidPriority` error,
and the same construction with priority 0 succeeds. -/
theorem c7_infinite_priority (ts : DateTimeUTC) (task : String)
    (mode : SchedulingMode) (kwargs : List String) (priority : Nat)
    (h1 : lowBound.leB ts = true) (h2 : ts.leB highBound = true) :
    (1 ≤ priority →
      ScheduleLine.new ts .Infinite priority task mode kwargs =
        .error (.InvalidPriority "Cannot have priority > 0 for infinite schedule line")) ∧
    ScheduleLine.new ts .Infinite 0 task mode kwargs =
      .ok ⟨ts, .Infinite, 0, task, mode, kwargs⟩ := by
  rw [tsLeB_not_ltB lowBound ts] at h1
  rw [tsLeB_not_ltB ts highBound] at h2
  rw [Bool.not_eq_true'] at h1 h2
  unfold ScheduleLine.new
  rw [h1, h2]
  constructor
  · intro hp
    rw [if_neg (by decide)]
    show (if priority > 0 then _ else _) = _
    rw [if_pos (by omega)]
  · rw [if_neg (by decide)]
    rfl

theorem c7_check :
    ScheduleLine.new ⟨2020, 6, 1, 12, 30⟩ .Infinite 1 "twofsound" .Discretionary [] =
      .error (.InvalidPriority "Cannot have priority > 0 for infinite schedule line") ∧
    ScheduleLine.new ⟨2020, 6, 1, 12, 30⟩ .Infinite 0 "twofsound" .Discretionary [] =
      .ok ⟨⟨2020, 6, 1, 12, 30⟩, .Infinite, 0, "twofsound", .Discretionary, []⟩ := by
  have h := c7_infinite_priority ⟨2020, 6, 1, 12, 30⟩ "twofsound" .Discretionary [] 1
    (by decide) (by decide)
  exact ⟨h.1 (by decide), h.2⟩

theorem c7_cex :
    isOkE (ScheduleLine.new ⟨1999, 1, 1, 0, 0⟩ .Infinite 0 "normalscan" .Common []) = false := by
  decide

theorem c8_cex : (ModeList.next ⟨[], some 0⟩).selected = some 0 := rfl

/-- Claim C8: on an empty underlying sequence the task-option and entry
lists reset the cursor to none while the mode-option list leaves it
unchanged; on a non-empty sequence, for all three lists, next wraps from
the last index to 0, previous wraps from index 0 to the last index, and
either operation moves an unselected cursor to index 0. -/
theorem c8_navigation :
    (∀ l : ExperimentList, l.items = [] →
      l.next.selected = none ∧ l.previous.selected = none ∧
      l.first.selected = none ∧ l.last.selected = none) ∧
    (∀ l : ScheduleList, l.lines = [] →
      l.next.selected = none ∧ l.previous.selected = none ∧
      l.first.selected = none ∧ l.last.selected = none) ∧
    (∀ l : ModeList, l.modes = [] →
      l.next = l ∧ l.previous = l ∧ l.first = l ∧ l.last = l) ∧
    (∀ l : ExperimentList, l.items ≠ [] →
      (ExperimentList.next ⟨l.items, some (l.items.length - 1)⟩).selected = some 0 ∧
      (ExperimentList.previous ⟨l.items, some 0⟩).selected = some (l.items.length - 1) ∧
      (ExperimentList.next ⟨l.items, none⟩).selected = some 0 ∧
      (ExperimentList.previous ⟨l.items, none⟩).selected = some 0) ∧
    (∀ l : ScheduleList, l.lines ≠ [] →
      (ScheduleList.next ⟨l.lines, some (l.lines.length - 1)⟩).selected = some 0 ∧
      (ScheduleList.previous ⟨l.lines, some 0⟩).selected = some (l.lines.length - 1) ∧
      (ScheduleList.next ⟨l.lines, none⟩).selected = some 0 ∧
      (ScheduleList.previous ⟨l.lines, none⟩).selected = some 0) ∧
    (∀ l : ModeList, l.modes ≠ [] →
      (ModeList.next ⟨l.modes, some (l.modes.length - 1)⟩).selected = some 0 ∧
      (ModeList.previous ⟨l.modes, some 0⟩).selected = some (l.modes.length - 1) ∧
      (ModeList.next ⟨l.modes, none⟩).selected = some 0 ∧
      (ModeList.previous ⟨l.modes, none⟩).selected = some 0) := by
  refine ⟨?_, ?_, ?_, ?_, ?_, ?_⟩
  · intro l h
    refine ⟨?_, ?_, ?_, ?_⟩ <;>
      simp [ExperimentList.next, ExperimentList.previous, ExperimentList.first,
        ExperimentList.last, h]
  · intro l h
    refine ⟨?_, ?_, ?_, ?_⟩ <;>
      simp [ScheduleList.next, ScheduleList.previous, ScheduleList.first,
        ScheduleList.last, h]
  · intro l h
    refine ⟨?_, ?_, ?_, ?_⟩ <;>
      simp [ModeList.next, ModeList.previous, ModeList.first, ModeList.last, h]
  · intro l h
    have hn : l.items.length ≠ 0 := by simpa using fun hh => h (List.length_eq_zero.mp hh)
    refine ⟨?_, ?_, ?_, ?_⟩ <;>
      simp [ExperimentList.next, ExperimentList.previous, hn]
  · intro l h
    have hn : l.lines.length ≠ 0 := by simpa using fun hh => h (List.length_eq_zero.mp hh)
    refine ⟨?_, ?_, ?_, ?_⟩ <;>
      simp [ScheduleList.next, ScheduleList.previous, hn]
  · intro l h
    have hn : 0 < l.modes.length := List.length_pos.mpr h
    refine ⟨?_, ?_, ?_, ?_⟩ <;>
      simp [ModeList.next, ModeList.previous, hn]

theorem c8_check :
    (ExperimentList.next ⟨["a", "b", "c"], some 2⟩).selected = some 0 ∧
    (ExperimentList.previous ⟨["a", "b", "c"], some 0⟩).selected = some 2 ∧
    (ExperimentList.next ⟨[], some 1⟩).selected = none := by
  have h := c8_navigation.2.2.2.1 ⟨["a", "b", "c"], some 2⟩ (by decide)
  exact ⟨h.1, h.2.1, (c8_navigation.1 ⟨[], some 1⟩ rfl).1⟩

/-! ## C5: save protocol -/

theorem renderSchedule_cons (x : ScheduleLine) (ls : List ScheduleLine) :
    renderSchedule (x :: ls) = renderSchedule ls ++ x.format ++ "\n" := by
  unfold renderSchedule
  rw [List.reverse_cons, List.foldl_append]
  rfl

/-- Claim C5: saving first copies the current schedule file to its backup
path; if the copy fails the save aborts with the file system untouched and
no write attempted, and otherwise the schedule file is rewritten to the
entries in ascending order, one encoded newline-terminated line each. -/
theorem c5_save_protocol (app : App) (fs : FileSystem) :
    (∀ msg, fsCopy fs = .error msg → app.save_schedule fs = (fs, .error msg)) ∧
    (∀ content, fs.scd = some content → fs.bakReadOnly = false →
      fs.scdReadOnly = false →
      app.save_schedule fs =
        ({ fs with bak := some content,
                   scd := some (renderSchedule app.schedule_list.lines) }, .ok ())) ∧
    renderSchedule [] = "" ∧
    (∀ x ls, renderSchedule (x :: ls) = renderSchedule ls ++ x.format ++ "\n") := by
  refine ⟨?_, ?_, rfl, fun x ls => renderSchedule_cons x ls⟩
  · intro msg h
    unfold App.save_schedule
    rw [h]
  · intro content h1 h2 h3
    unfold App.save_schedule fsCopy fsWriteSchedule
    rw [h1, h2, h3]
    rfl

theorem c5_check :
    (App.mk "" "" "" "" "" "" "" ⟨[], none⟩ ⟨[], none⟩ "" ⟨[], none⟩ none none [] []).save_schedule
        ⟨none, none, false, false⟩ =
      (⟨none, none, false, false⟩, .error "No such file or directory") :=
  (c5_save_protocol _ _).1 "No such file or directory" rfl

/-! ## Error-shape lemmas for the construction pipeline -/

theorem parse_duration_err (s : String) (e : ScheduleError)
    (h : parse_duration s = .error e) : ∃ m, e = .InvalidDuration m := by
  unfold parse_duration at h
  repeat' split at h
  all_goals first
    | (injection h with h'; exact ⟨_, h'.symm⟩)
    | simp at h

theorem durationFromInput_err (s : String) (e : ScheduleError)
    (h : durationFromInput s = .error e) : ∃ m, e = .InvalidDuration m := by
  unfold durationFromInput at h
  repeat' split at h
  · simp at h
  · rename_i heq
    injection h with h'
    subst h'
    exact parse_duration_err _ _ heq
  · simp at h

/-- The Boolean field of the taxonomy `create_line_from_inputs` can
actually raise: date, time, duration or priority. -/
def errImplicatesField : ScheduleError → Bool
  | .InvalidDate _ => true
  | .InvalidTime _ => true
  | .InvalidDuration _ => true
  | .InvalidPriority _ => true
  | .InvalidMode _ => false
  | .MissingFields => false

theorem create_err_field (app : App) (e : ScheduleError)
    (h : app.create_line_from_inputs = .error e) : errImplicatesField e = true := by
  unfold App.create_line_from_inputs at h
  repeat' split at h
  all_goals first
    | (injection h with h'; rw [← h']; rfl)
    | (rename_i heq
       injection h with h'
       rw [← h']
       obtain ⟨m, hm⟩ := durationFromInput_err _ _ heq
       rw [hm]
       rfl)
    | injection h

/-! ## C3: submit failure -/

/-- The error-to-field routing table claim C3 states: `InvalidDate` to
Year (Month/Day when the message names that sub-field), `InvalidTime`
to Hour (Minute when named), `InvalidDuration` to Duration,
`InvalidPriority` to Priority, `InvalidMode` to Mode.  The
`MissingFields` arm is arbitrary: the construction never raises it
(first conjunct of `c3_submit_failure`). -/
def claimedRoute : ScheduleError → CurrentlyEditing
  | .InvalidDate s =>
    if containsSub s "day" then .Day
    else if containsSub s "month" then .Month
    else .Year
  | .InvalidTime s => if containsSub s "minute" then .Minute else .Hour
  | .InvalidDuration _ => .Duration
  | .InvalidPriority _ => .Priority
  | .InvalidMode _ => .SchedulingMode
  | .MissingFields => .Year

/-- Claim C3: when constructing an entry from the edit buffers fails,
submit leaves every buffer, the live schedule list and the additions
ledger unchanged, records the error in last_err, and moves the editing
cursor to the field implicated by the error kind and message substrings
(and construction never raises MissingFields). -/
theorem c3_submit_failure (app : App) (e : ScheduleError)
    (h : app.create_line_from_inputs = .error e) :
    e ≠ .MissingFields ∧
    app.submit.year_input = app.year_input ∧
    app.submit.month_input = app.month_input ∧
    app.submit.day_input = app.day_input ∧
    app.submit.hour_input = app.hour_input ∧
    app.submit.minute_input = app.minute_input ∧
    app.submit.duration_input = app.duration_input ∧
    app.submit.priority_input = app.priority_input ∧
    app.submit.kwarg_input = app.kwarg_input ∧
    app.submit.last_err = some e ∧
    app.submit.schedule_list.lines = app.schedule_list.lines ∧
    app.submit.additions = app.additions ∧
    app.submit.currently_editing = some (claimedRoute e) := by
  have hf := create_err_field app e h
  have hsub : app.submit = { app with
      last_err := some e
      currently_editing := routeError app.currently_editing e } := by
    unfold App.submit App.save_entry
    rw [h]
  refine ⟨?_, ?_⟩
  · intro hh
    rw [hh] at hf
    exact absurd hf (by decide)
  rw [hsub]
  refine ⟨rfl, rfl, rfl, rfl, rfl, rfl, rfl, rfl, rfl, rfl, rfl, ?_⟩
  show routeError app.currently_editing e = some (claimedRoute e)
  cases e with
  | InvalidDate s =>
    unfold routeError claimedRoute
    cases hd : containsSub s "day" <;> cases hm : containsSub s "month" <;>
      simp [hd, hm]
  | InvalidTime s =>
    unfold routeError claimedRoute
    cases hm : containsSub s "minute" <;> simp [hm]
  | InvalidDuration s => rfl
  | InvalidPriority s => rfl
  | InvalidMode s => rfl
  | MissingFields => exact absurd hf (by decide)

/-- A session whose year buffer is empty: construction fails at the very
first rule. -/
def appBadYear : App :=
  ⟨"", "", "", "", "", "", "", ⟨[], none⟩, ⟨[], none⟩, "", ⟨[], none⟩,
   some .Done, none, [], []⟩

theorem c3_check :
    appBadYear.submit.currently_editing = some CurrentlyEditing.Year ∧
    appBadYear.submit.last_err = some (.InvalidDate "Bad year: ") ∧
    appBadYear.submit.schedule_list.lines = [] := by
  obtain ⟨hne, hy, hm, hd, hh, hmin, hdur, hpri, hkw, hlast, hlines, hadds, hcur⟩ :=
    c3_submit_failure appBadYear (.InvalidDate "Bad year: ") rfl
  refine ⟨?_, hlast, hlines⟩
  rw [hcur]
  decide

/-! ## Inversion lemmas for successful construction -/

theorem create_ok_fields (app : App) (e : ScheduleLine)
    (h : app.create_line_from_inputs = .ok e) :
    e.experiment = (match app.experiment_list.selected with
      | some i => app.experiment_list.items.getD i ""
      | none => "normalscan") ∧
    e.scheduling_mode = (match app.mode_list.selected with
      | some i => app.mode_list.modes.getD i .Common
      | none => .Common) ∧
    e.kwargs = (splitSp app.kwarg_input.data).map String.mk := by
  unfold App.create_line_from_inputs at h
  repeat' split at h
  any_goals injection h
  all_goals (rename_i a_eq; subst a_eq; exact ⟨rfl, rfl, rfl⟩)

theorem new_ok_inv (ts : DateTimeUTC) (d : ScdDuration) (p : Nat) (x : String)
    (mo : SchedulingMode) (kw : List String) (e : ScheduleLine)
    (h : ScheduleLine.new ts d p x mo kw = .ok e) :
    e = ⟨ts, d, p, x, mo, kw⟩ ∧ ts.ltB lowBound = false ∧
    highBound.ltB ts = false ∧ p ≤ 20 ∧
    (d = .Infinite → p = 0) ∧ (∀ mm, d = .Finite mm → 1 ≤ mm) := by
  unfold ScheduleLine.new at h
  by_cases hg : (ts.ltB lowBound || highBound.ltB ts) = true
  · rw [if_pos hg] at h
    exact absurd h (by intro hc; cases hc)
  · rw [if_neg hg] at h
    have hg1 : ts.ltB lowBound = false := by
      revert hg
      cases ts.ltB lowBound <;> cases highBound.ltB ts <;> decide
    have hg2 : highBound.ltB ts = false := by
      revert hg
      cases ts.ltB lowBound <;> cases highBound.ltB ts <;> decide
    split at h
    · by_cases hp : p > 0
      · rw [if_pos hp] at h
        exact absurd h (by intro hc; cases hc)
      · rw [if_neg hp] at h
        by_cases hp2 : p > 20
        · rw [if_pos hp2] at h
          exact absurd h (by intro hc; cases hc)
        · rw [if_neg hp2] at h
          injection h with h2
          rw [← h2]
          refine ⟨rfl, hg1, hg2, by omega, fun _ => by omega, ?_⟩
          intro mm hmm
          simp at hmm
    · rename_i dm
      by_cases hd : dm < 1
      · rw [if_pos hd] at h
        exact absurd h (by intro hc; cases hc)
      · rw [if_neg hd] at h
        by_cases hp2 : p > 20
        · rw [if_pos hp2] at h
          exact absurd h (by intro hc; cases hc)
        · rw [if_neg hp2] at h
          injection h with h2
          rw [← h2]
          refine ⟨rfl, hg1, hg2, by omega, ?_, ?_⟩
          · intro hc
            simp at hc
          · intro mm hmm
            injection hmm with h3
            omega

theorem try_from_ok_kwargs (line : String) (e : ScheduleLine)
    (h : ScheduleLine.try_from line = .ok e) :
    e.kwargs = (lineFields line).drop 6 := by
  unfold ScheduleLine.try_from at h
  repeat' split at h
  any_goals injection h
  obtain ⟨he, -, -, -, -, -⟩ := new_ok_inv _ _ _ _ _ _ _ h
  rw [he]

/-! ## C9 and C10 -/

/-- Claim C9: with no task or mode selected, construction silently
defaults the task to "normalscan" and the mode to Common, and the result
is identical with empty option lists, so missing selections never fail
and are never validated against the known lists. -/
theorem c9_defaults (app : App)
    (h1 : app.experiment_list.selected = none)
    (h2 : app.mode_list.selected = none) :
    app.create_line_from_inputs =
      App.create_line_from_inputs { app with
        experiment_list := ⟨[], none⟩
        mode_list := ⟨[], none⟩ } ∧
    ∀ e, app.create_line_from_inputs = .ok e →
      e.experiment = "normalscan" ∧ e.scheduling_mode = .Common := by
  constructor
  · unfold App.create_line_from_inputs
    rw [h1, h2]
  · intro e he
    obtain ⟨hx, hm, -⟩ := create_ok_fields app e he
    rw [h1] at hx
    rw [h2] at hm
    exact ⟨hx, hm⟩

/-- A session with valid buffers and nothing selected in either option
list. -/
def appDefaults : App :=
  ⟨"2024", "3", "5", "6", "7", "60", "2", ⟨["normalscan", "twofsound"], none⟩,
   ⟨[.Common, .Discretionary, .Special], none⟩, "", ⟨[], none⟩,
   some .Done, none, [], []⟩

/-- What `appDefaults` constructs. -/
def lineDefaults : ScheduleLine :=
  ⟨⟨2024, 3, 5, 6, 7⟩, .Finite 60, 2, "normalscan", .Common, [""]⟩

theorem c9_check :
    appDefaults.create_line_from_inputs = .ok lineDefaults ∧
    lineDefaults.experiment = "normalscan" ∧
    lineDefaults.scheduling_mode = .Common := by
  have h := (c9_defaults appDefaults rfl rfl).2 lineDefaults (by decide)
  exact ⟨by decide, h⟩

/-- Claim C10: an empty kwargs buffer produces the one-element kwargs
list holding the empty token, never the empty list, so the constructed
entry differs from every entry decoded from a 6-field schedule line. -/
theorem c10_empty_kwargs (app : App) (e : ScheduleLine)
    (h0 : app.kwarg_input = "")
    (h : app.create_line_from_inputs = .ok e) :
    e.kwargs = [""] ∧ e.kwargs ≠ [] ∧
    ∀ line e2, (lineFields line).length = 6 →
      ScheduleLine.try_from line = .ok e2 → e ≠ e2 := by
  obtain ⟨-, -, hk⟩ := create_ok_fields app e h
  rw [h0] at hk
  have hk1 : e.kwargs = [""] := hk.trans (by decide)
  refine ⟨hk1, by rw [hk1]; simp, ?_⟩
  intro line e2 hlen h2 heq
  have h2k := try_from_ok_kwargs line e2 h2
  rw [List.drop_eq_nil_of_le (by omega)] at h2k
  rw [heq] at hk1
  rw [h2k] at hk1
  exact absurd hk1 (by decide)

theorem c10_check :
    lineDefaults.kwargs = [""] ∧
    lineDefaults ≠ ⟨⟨2024, 3, 5, 6, 7⟩, .Finite 60, 2, "normalscan", .Common, []⟩ := by
  obtain ⟨h1, -, h3⟩ := c10_empty_kwargs appDefaults lineDefaults rfl (by decide)
  exact ⟨h1, h3 "20240305 06:07 60 2 normalscan common"
    ⟨⟨2024, 3, 5, 6, 7⟩, .Finite 60, 2, "normalscan", .Common, []⟩ (by decide) (by decide)⟩

/-! ## C2: the construction order, rule by rule

The following definitions restate the (amended) claim's validation
cascade in its own terms — one named rule per step, composed
fail-fast — to be compared with the source-shaped
`App.create_line_from_inputs`. -/

/-- Year rule: syntax (u16), then range [2000, 2050]. -/
def ruleYear (s : String) : Except ScheduleError Nat :=
  match parseU16 s with
  | none => .error (.InvalidDate ("Bad year: " ++ s))
  | some year =>
    if year < 2000 ∨ year > 2050 then
      .error (.InvalidDate ("Bad year: " ++ natRepr year ++ " not in range [2000, 2050]"))
    else .ok year

/-- Month rule: syntax (u8), then range [1, 12]. -/
def ruleMonth (s : String) : Except ScheduleError Nat :=
  match parseU8 s with
  | none => .error (.InvalidDate ("Bad month: " ++ s))
  | some month =>
    if month = 0 ∨ month > 12 then
      .error (.InvalidDate ("Bad month: " ++ natRepr month ++ " not in range [1, 12]"))
    else .ok month

/-- Day rule: syntax (u8), then range [1, 31]. -/
def ruleDay (s : String) : Except ScheduleError Nat :=
  match parseU8 s with
  | none => .error (.InvalidDate ("Bad day: " ++ s))
  | some day =>
    if day = 0 ∨ day > 31 then
      .error (.InvalidDate ("Bad day: " ++ natRepr day ++ " not in range [1, 31]"))
    else .ok day

/-- Hour rule: syntax (u8), then range [0, 23]. -/
def ruleHour (s : String) : Except ScheduleError Nat :=
  match parseU8 s with
  | none => .error (.InvalidTime ("Bad hour: " ++ s))
  | some hour =>
    if hour > 23 then
      .error (.InvalidTime ("Bad hour: " ++ natRepr hour ++ " not in range [0, 23]"))
    else .ok hour

/-- Minute rule: syntax (u8), then range [0, 59]. -/
def ruleMinute (s : String) : Except ScheduleError Nat :=
  match parseU8 s with
  | none => .error (.InvalidTime ("Bad minute: " ++ s))
  | some minute =>
    if minute > 59 then
      .error (.InvalidTime ("Bad minute: " ++ natRepr minute ++ " not in range [0, 59]"))
    else .ok minute

/-- Calendar rule: the date must exist. -/
def ruleCalendar (y mo d : Nat) : Except ScheduleError Unit :=
  if validYMD y mo d then .ok ()
  else .error (.InvalidDate (natRepr y ++ natRepr mo ++ natRepr d))

/-- Duration rule: `-` is infinite (with no priority requirement), any
other token must merely parse as an i64 minute count — positivity is
not checked. -/
def ruleDuration (s : String) : Except ScheduleError ScdDuration :=
  if s = "-" then .ok .Infinite
  else
    match parse_duration s with
    | .error e => .error e
    | .ok m => .ok (.Finite m)

/-- Priority rule: syntax (u8), then bound 20. -/
def rulePriority (s : String) : Except ScheduleError Nat :=
  match parseU8 s with
  | none => .error (.InvalidPriority s)
  | some priority =>
    if priority > 20 then
      .error (.InvalidPriority (natRepr priority ++ " > 20"))
    else .ok priority

/-- The task is whatever is selected, else the literal `normalscan`;
never validated. -/
def defaultedExperiment (l : ExperimentList) : String :=
  match l.selected with
  | some i => l.items.getD i ""
  | none => "normalscan"

/-- The mode is whatever is selected, else `Common`; never validated. -/
def defaultedMode (l : ModeList) : SchedulingMode :=
  match l.selected with
  | some i => l.modes.getD i .Common
  | none => .Common

/-- The kwargs: the buffer split on spaces, unconditionally. -/
def kwargTokens (s : String) : List String :=
  (splitSp s.data).map String.mk

/-- The amended claim's cascade: year → month → day → hour → minute →
calendar → duration (no positivity, no infinite-priority rule) →
priority; task and mode defaulted, never checked; first error wins. -/
def claimedOrderConstruction (app : App) : Except ScheduleError ScheduleLine :=
  match ruleYear app.year_input with
  | .error e => .error e
  | .ok year =>
    match ruleMonth app.month_input with
    | .error e => .error e
    | .ok month =>
      match ruleDay app.day_input with
      | .error e => .error e
      | .ok day =>
        match ruleHour app.hour_input with
        | .error e => .error e
        | .ok hour =>
          match ruleMinute app.minute_input with
          | .error e => .error e
          | .ok minute =>
            match ruleCalendar year month day with
            | .error e => .error e
            | .ok _ =>
              match ruleDuration app.duration_input with
              | .error e => .error e
              | .ok duration =>
                match rulePriority app.priority_input with
                | .error e => .error e
                | .ok priority =>
                  .ok ⟨⟨year, month, day, hour, minute⟩, duration, priority,
                    defaultedExperiment app.experiment_list,
                    defaultedMode app.mode_list,
                    kwargTokens app.kwarg_input⟩

/-- Claim C2: entry construction from the edit buffers equals the
fail-fast rule cascade: year, month, day, hour and minute syntax and
ranges, calendar validity of the date, duration syntax (with no
positivity or infinite-priority check), then priority syntax and range;
task and mode are never validated and missing selections default. When
several fields are invalid the earliest rule's error is returned. -/
theorem c2_order (app : App) :
    app.create_line_from_inputs = claimedOrderConstruction app := by
  unfold App.create_line_from_inputs claimedOrderConstruction ruleYear ruleMonth
    ruleDay ruleHour ruleMinute ruleCalendar rulePriority
    defaultedExperiment defaultedMode kwargTokens
  rw [show ruleDuration = durationFromInput from rfl]
  cases hy : parseU16 app.year_input with
  | none => rfl
  | some year =>
    simp only []
    by_cases h1 : year < 2000 ∨ year > 2050
    · rw [if_pos h1, if_pos h1]
    · rw [if_neg h1, if_neg h1]
      cases hmo : parseU8 app.month_input with
      | none => rfl
      | some month =>
        simp only []
        by_cases h2 : month = 0 ∨ month > 12
        · rw [if_pos h2, if_pos h2]
        · rw [if_neg h2, if_neg h2]
          cases hd : parseU8 app.day_input with
          | none => rfl
          | some day =>
            simp only []
            by_cases h3 : day = 0 ∨ day > 31
            · rw [if_pos h3, if_pos h3]
            · rw [if_neg h3, if_neg h3]
              cases hh : parseU8 app.hour_input with
              | none => rfl
              | some hour =>
                simp only []
                by_cases h4 : hour > 23
                · rw [if_pos h4, if_pos h4]
                · rw [if_neg h4, if_neg h4]
                  cases hmi : parseU8 app.minute_input with
                  | none => rfl
                  | some minute =>
                    simp only []
                    by_cases h5 : minute > 59
                    · rw [if_pos h5, if_pos h5]
                    · rw [if_neg h5, if_neg h5]
                      by_cases h6 : validYMD year month day = true
                      · rw [if_neg (not_not_intro h6), if_pos h6]
                        rw [if_neg (by omega : ¬¬(hour ≤ 23 ∧ minute ≤ 59))]
                        cases hdu : durationFromInput app.duration_input with
                        | error e => rfl
                        | ok duration =>
                          simp only []
                          cases hp : parseU8 app.priority_input with
                          | none => rfl
                          | some priority =>
                            simp only []
                            by_cases h7 : priority > 20
                            · rw [if_pos h7, if_pos h7]
                            · rw [if_neg h7, if_neg h7]
                      · rw [if_pos h6, if_neg h6]

/-- A session whose duration buffer is `-` (infinite) and whose priority
buffer is `1`, every other buffer valid: the claim's zero-priority
requirement for infinite entries would have to reject it. -/
def appInfinitePriority : App :=
  ⟨"2024", "3", "5", "6", "7", "-", "1", ⟨["normalscan"], none⟩,
   ⟨[.Common, .Discretionary, .Special], some 0⟩, "", ⟨[], none⟩,
   some .Done, none, [], []⟩

theorem c2_cex :
    appInfinitePriority.create_line_from_inputs =
      .ok ⟨⟨2024, 3, 5, 6, 7⟩, .Infinite, 1, "normalscan", .Common, [""]⟩ := by
  decide

theorem c2_check :
    appInfinitePriority.create_line_from_inputs =
      claimedOrderConstruction appInfinitePriority :=
  c2_order appInfinitePriority

/-! ## C4: successful submit re-sorts the live list -/

/-- Ascending order of `ScheduleLine` as a relation. -/
def lineLe (a b : ScheduleLine) : Prop := a.leB b = true

theorem insertLine_perm (x : ScheduleLine) (l : List ScheduleLine) :
    List.Perm (insertLine x l) (x :: l) := by
  induction l with
  | nil => exact List.Perm.refl _
  | cons y ys ih =>
    unfold insertLine
    by_cases h : x.leB y = true
    · rw [if_pos h]
    · rw [if_neg h]
      exact (List.Perm.cons y ih).trans (List.Perm.swap x y ys)

theorem insertLine_chain (x : ScheduleLine) (l : List ScheduleLine)
    (h : List.Chain' lineLe l) : List.Chain' lineLe (insertLine x l) := by
  induction l with
  | nil => exact List.chain'_singleton x
  | cons y ys ih =>
    unfold insertLine
    by_cases hxy : x.leB y = true
    · rw [if_pos hxy]
      exact List.Chain'.cons hxy h
    · rw [if_neg hxy]
      have hyx : y.leB x = true := (lineLeB_total x y).resolve_left hxy
      rw [List.chain'_cons']
      refine ⟨?_, ih h.tail⟩
      intro z hz
      cases ys with
      | nil =>
        simp [insertLine] at hz
        rw [← hz]
        exact hyx
      | cons w ws =>
        by_cases hxw : x.leB w = true
        · simp [insertLine, hxw] at hz
          rw [← hz]
          exact hyx
        · simp [insertLine, hxw] at hz
          rw [← hz]
          exact (List.chain'_cons.mp h).1

theorem sortLines_perm (l : List ScheduleLine) : List.Perm (sortLines l) l := by
  induction l with
  | nil => exact List.Perm.refl _
  | cons x xs ih =>
    show List.Perm (insertLine x (sortLines xs)) (x :: xs)
    exact (insertLine_perm x (sortLines xs)).trans (ih.cons x)

theorem sortLines_chain (l : List ScheduleLine) :
    List.Chain' lineLe (sortLines l) := by
  induction l with
  | nil => exact List.chain'_nil
  | cons x xs ih => exact insertLine_chain x (sortLines xs) ih

/-- Claim C4: when construction succeeds, submit replaces the live list
with a permutation of the old list plus the new entry, pairwise
descending by the derived entry order and hence by timestamp, appends the
entry to the additions ledger, clears every text buffer and clears
last_err. -/
theorem c4_submit_success (app : App) (e : ScheduleLine)
    (h : app.create_line_from_inputs = .ok e) :
    (app.save_entry).2 = .ok () ∧
    (app.save_entry).1.schedule_list.lines =
      (sortLines (app.schedule_list.lines ++ [e])).reverse ∧
    List.Perm (app.save_entry).1.schedule_list.lines
      (e :: app.schedule_list.lines) ∧
    List.Chain' (fun a b => b.leB a = true)
      (app.save_entry).1.schedule_list.lines ∧
    List.Chain' (fun a b => b.timestamp.leB a.timestamp = true)
      (app.save_entry).1.schedule_list.lines ∧
    (app.save_entry).1.additions = app.additions ++ [e] ∧
    (app.save_entry).1.last_err = none ∧
    (app.save_entry).1.year_input = "" ∧
    (app.save_entry).1.month_input = "" ∧
    (app.save_entry).1.day_input = "" ∧
    (app.save_entry).1.hour_input = "" ∧
    (app.save_entry).1.minute_input = "" ∧
    (app.save_entry).1.duration_input = "" ∧
    (app.save_entry).1.priority_input = "" ∧
    (app.save_entry).1.kwarg_input = "" := by
  have hs : app.save_entry = ({ app with
      additions := app.additions ++ [e]
      last_err := none
      schedule_list := { app.schedule_list with
        lines := (sortLines (app.schedule_list.lines ++ [e])).reverse }
      year_input := ""
      month_input := ""
      day_input := ""
      hour_input := ""
      minute_input := ""
      duration_input := ""
      priority_input := ""
      kwarg_input := "" }, .ok ()) := by
    unfold App.save_entry
    rw [h]
  rw [hs]
  have hdesc : List.Chain' (fun a b => b.leB a = true)
      ((sortLines (app.schedule_list.lines ++ [e])).reverse) := by
    rw [List.chain'_reverse]
    exact sortLines_chain _
  refine ⟨rfl, rfl, ?_, hdesc, ?_, rfl, rfl, rfl, rfl, rfl, rfl, rfl, rfl, rfl, rfl⟩
  · exact (List.reverse_perm _).trans
      ((sortLines_perm _).trans (List.perm_append_singleton e _))
  · exact hdesc.imp fun a b hab => leB_timestamp b a hab

/-- A (later) entry already in the live list. -/
def line2030 : ScheduleLine :=
  ⟨⟨2030, 1, 1, 0, 0⟩, .Finite 60, 0, "normalscan", .Common, []⟩

/-- A session adding an earlier (2024) entry while `line2030` is live. -/
def appC4 : App :=
  ⟨"2024", "3", "5", "6", "7", "60", "2", ⟨["normalscan"], none⟩,
   ⟨[.Common, .Discretionary, .Special], some 0⟩, "x y", ⟨[line2030], none⟩,
   some .Done, none, [], []⟩

theorem c4_check :
    (appC4.save_entry).2 = .ok () ∧
    (appC4.save_entry).1.schedule_list.lines =
      [line2030, ⟨⟨2024, 3, 5, 6, 7⟩, .Finite 60, 2, "normalscan", .Common, ["x", "y"]⟩] ∧
    (appC4.save_entry).1.year_input = "" := by
  obtain ⟨h1, h2, -, -, -, -, -, h8, -, -, -, -, -, -, -⟩ := c4_submit_success appC4
    ⟨⟨2024, 3, 5, 6, 7⟩, .Finite 60, 2, "normalscan", .Common, ["x", "y"]⟩ (by decide)
  exact ⟨h1, h2.trans (by decide), h8⟩

/-! ## C1: digit-level round-trip lemmas -/

theorem digitChar_digit (n : Nat) : isDigitC (digitChar n) = true := by
  unfold digitChar
  split <;> decide

theorem charVal_digitChar (n : Nat) (h : n < 10) : charVal (digitChar n) = n := by
  interval_cases n <;> decide

theorem digit_ne (c : Char) (h : isDigitC c = true) :
    ¬ c = ' ' ∧ ¬ c = '+' ∧ ¬ c = '-' ∧ ¬ c = ':' := by
  refine ⟨?_, ?_, ?_, ?_⟩ <;> intro hc <;> rw [hc] at h <;>
    exact absurd h (by decide)

theorem digitsToNat_append_one (l : List Char) (c : Char) :
    digitsToNat (l ++ [c]) = 10 * digitsToNat l + charVal c := by
  unfold digitsToNat
  rw [List.foldl_append]
  rfl

theorem natDigitsF_fuel (n : Nat) : ∀ f1 f2, n < f1 → n < f2 →
    natDigitsF f1 n = natDigitsF f2 n := by
  induction n using Nat.strong_induction_on with
  | _ n ih =>
    intro f1 f2 h1 h2
    cases f1 with
    | zero => omega
    | succ g1 =>
      cases f2 with
      | zero => omega
      | succ g2 =>
        rw [natDigitsF, natDigitsF]
        by_cases hn : n < 10
        · rw [if_pos hn, if_pos hn]
        · rw [if_neg hn, if_neg hn]
          have hdiv : n / 10 < n := Nat.div_lt_self (by omega) (by omega)
          rw [ih (n / 10) hdiv g1 (n / 10 + 1) (by omega) (by omega),
            ih (n / 10) hdiv g2 (n / 10 + 1) (by omega) (by omega)]

/-- The recursion `natDigits` satisfies. -/
theorem natDigits_step (n : Nat) : natDigits n =
    if n < 10 then [digitChar n]
    else natDigits (n / 10) ++ [digitChar (n % 10)] := by
  show natDigitsF (n + 1) n = _
  rw [natDigitsF]
  by_cases hn : n < 10
  · rw [if_pos hn, if_pos hn]
  · rw [if_neg hn, if_neg hn]
    have hdiv : n / 10 < n := Nat.div_lt_self (by omega) (by omega)
    rw [natDigitsF_fuel (n / 10) n (n / 10 + 1) hdiv (by omega)]
    rfl

theorem natDigits_ne_nil (n : Nat) : natDigits n ≠ [] := by
  rw [natDigits_step]
  split
  · simp
  · simp

theorem natDigits_all_digits (n : Nat) : ∀ c ∈ natDigits n, isDigitC c = true := by
  induction n using Nat.strong_induction_on with
  | _ n ih =>
    rw [natDigits_step]
    split
    · intro c hc
      simp at hc
      rw [hc]
      exact digitChar_digit _
    · rename_i hn
      intro c hc
      rcases List.mem_append.mp hc with hl | hr
      · exact ih (n / 10) (Nat.div_lt_self (by omega) (by omega)) c hl
      · simp at hr
        rw [hr]
        exact digitChar_digit _

theorem digitsToNat_natDigits (n : Nat) : digitsToNat (natDigits n) = n := by
  induction n using Nat.strong_induction_on with
  | _ n ih =>
    rw [natDigits_step]
    split
    · rename_i hn
      show digitsToNat [digitChar n] = n
      unfold digitsToNat
      simp [charVal_digitChar n hn]
    · rename_i hn
      rw [digitsToNat_append_one]
      rw [ih (n / 10) (Nat.div_lt_self (by omega) (by omega))]
      rw [charVal_digitChar (n % 10) (by omega)]
      omega

theorem parseNatDigits_natDigits (n : Nat) :
    parseNatDigits (natDigits n) = some n := by
  unfold parseNatDigits
  rw [if_pos ⟨natDigits_ne_nil n,
    List.all_eq_true.mpr (fun c hc => natDigits_all_digits n c hc)⟩]
  rw [digitsToNat_natDigits]

theorem natDigits_head_digit (n : Nat) :
    ∃ c cs, natDigits n = c :: cs ∧ isDigitC c = true := by
  cases hh : natDigits n with
  | nil => exact absurd hh (natDigits_ne_nil n)
  | cons c cs =>
    refine ⟨c, cs, rfl, natDigits_all_digits n c ?_⟩
    rw [hh]
    simp

theorem parseUnsigned_natRepr (bound n : Nat) (h : n ≤ bound) :
    parseUnsigned bound (natRepr n) = some n := by
  obtain ⟨c, cs, hcc, hdig⟩ := natDigits_head_digit n
  unfold parseUnsigned natRepr
  simp only []
  rw [hcc]
  simp only []
  rw [if_neg (digit_ne c hdig).2.1]
  rw [← hcc, parseNatDigits_natDigits]
  simp [h]

theorem parseI64_natRepr (n : Nat) (h : (n : Int) < 2 ^ 63) :
    parseI64 (natRepr n) = some (n : Int) := by
  obtain ⟨c, cs, hcc, hdig⟩ := natDigits_head_digit n
  unfold parseI64 natRepr
  simp only []
  rw [hcc]
  simp only []
  rw [if_neg (digit_ne c hdig).2.2.1, if_neg (digit_ne c hdig).2.1]
  rw [← hcc, parseNatDigits_natDigits]
  have hn : n < 2 ^ 63 := by exact_mod_cast h
  simp
  omega

theorem natRepr_ne_dash (n : Nat) : natRepr n ≠ "-" := by
  obtain ⟨c, cs, hcc, hdig⟩ := natDigits_head_digit n
  unfold natRepr
  rw [hcc]
  intro hc
  have hd : c :: cs = "-".data := congrArg String.data hc
  injection hd with h1 h2
  exact (digit_ne c hdig).2.2.1 h1

theorem pad4chars_digits (n : Nat) : ∀ c ∈ pad4chars n, isDigitC c = true := by
  intro c hc
  unfold pad4chars at hc
  simp at hc
  rcases hc with h | h | h | h <;> (rw [h]; exact digitChar_digit _)

theorem pad2chars_digits (n : Nat) : ∀ c ∈ pad2chars n, isDigitC c = true := by
  intro c hc
  unfold pad2chars at hc
  simp at hc
  rcases hc with h | h <;> (rw [h]; exact digitChar_digit _)

theorem digitsToNat_pad4 (n : Nat) (h : n ≤ 9999) :
    digitsToNat (pad4chars n) = n := by
  unfold pad4chars digitsToNat
  simp only [List.foldl]
  rw [charVal_digitChar _ (by omega), charVal_digitChar _ (by omega),
    charVal_digitChar _ (by omega), charVal_digitChar _ (by omega)]
  omega

theorem digitsToNat_pad2 (n : Nat) (h : n ≤ 99) :
    digitsToNat (pad2chars n) = n := by
  unfold pad2chars digitsToNat
  simp only [List.foldl]
  rw [charVal_digitChar _ (by omega), charVal_digitChar _ (by omega)]
  omega

theorem dateFieldChars_no_space (t : DateTimeUTC) :
    ∀ c ∈ dateFieldChars t, ¬ c = ' ' := by
  intro c hc
  unfold dateFieldChars at hc
  rcases List.mem_append.mp hc with h | h
  · exact (digit_ne c (pad4chars_digits _ c h)).1
  · rcases List.mem_append.mp h with h2 | h2
    · exact (digit_ne c (pad2chars_digits _ c h2)).1
    · exact (digit_ne c (pad2chars_digits _ c h2)).1

theorem timeFieldChars_no_space (t : DateTimeUTC) :
    ∀ c ∈ timeFieldChars t, ¬ c = ' ' := by
  intro c hc
  unfold timeFieldChars at hc
  rcases List.mem_append.mp hc with h | h
  · exact (digit_ne c (pad2chars_digits _ c h)).1
  · rcases List.mem_cons.mp h with h2 | h2
    · rw [h2]; decide
    · exact (digit_ne c (pad2chars_digits _ c h2)).1

theorem natRepr_no_space (n : Nat) : ∀ c ∈ (natRepr n).data, ¬ c = ' ' := by
  intro c hc
  exact (digit_ne c (natDigits_all_digits n c hc)).1

theorem durFmtChars_no_space (d : ScdDuration) :
    ∀ c ∈ durFmtChars d, ¬ c = ' ' := by
  intro c hc
  cases d with
  | Infinite =>
    simp [durFmtChars] at hc
    rw [hc]
    decide
  | Finite m =>
    unfold durFmtChars intRepr at hc
    simp only [] at hc
    by_cases hm : m < 0
    · rw [if_pos hm] at hc
      rcases List.mem_append.mp hc with h | h
      · simp at h
        rw [h]
        decide
      · exact natRepr_no_space _ c h
    · rw [if_neg hm] at hc
      exact natRepr_no_space _ c hc

theorem modeFmtChars_no_space (m : SchedulingMode) :
    ∀ c ∈ modeFmtChars m, ¬ c = ' ' := by
  cases m <;> decide

/-! ## C1: splitting the encoded line back into fields -/

theorem splitSp_no_space (cs : List Char) (h : ∀ c ∈ cs, ¬ c = ' ') :
    splitSp cs = [cs] := by
  induction cs with
  | nil => rfl
  | cons c cs ih =>
    rw [splitSp]
    rw [if_neg (h c (by simp))]
    rw [ih (fun c2 hc2 => h c2 (by simp [hc2]))]

theorem splitSp_append_space (cs rest : List Char) (h : ∀ c ∈ cs, ¬ c = ' ') :
    splitSp (cs ++ ' ' :: rest) = cs :: splitSp rest := by
  induction cs with
  | nil =>
    show splitSp (' ' :: rest) = [] :: splitSp rest
    rw [splitSp]
    rw [if_pos rfl]
  | cons c cs ih =>
    show splitSp (c :: (cs ++ ' ' :: rest)) = (c :: cs) :: splitSp rest
    rw [splitSp]
    rw [if_neg (h c (by simp))]
    rw [ih (fun c2 hc2 => h c2 (by simp [hc2]))]

theorem splitSp_kwargs (kws : List String) :
    (∀ kw ∈ kws, ∀ c ∈ kw.data, ¬ c = ' ') →
    ∀ cs : List Char, (∀ c ∈ cs, ¬ c = ' ') →
      splitSp (cs ++ kwargsChars kws) = cs :: kws.map String.data := by
  induction kws with
  | nil =>
    intro _ cs h
    rw [show kwargsChars [] = [] from rfl, List.append_nil]
    exact splitSp_no_space cs h
  | cons kw rest ih =>
    intro hk cs h
    show splitSp (cs ++ (' ' :: (kw.data ++ kwargsChars rest))) =
      cs :: (kw.data :: rest.map String.data)
    rw [splitSp_append_space cs _ h]
    rw [ih (fun kw2 h2 c hc => hk kw2 (by simp [h2]) c hc) kw.data
      (fun c hc => hk kw (by simp) c hc)]

theorem digitsToNat_pad4L (n : Nat) (h : n ≤ 9999) :
    digitsToNat [digitChar (n / 1000 % 10), digitChar (n / 100 % 10),
      digitChar (n / 10 % 10), digitChar (n % 10)] = n :=
  digitsToNat_pad4 n h

theorem digitsToNat_pad2L (n : Nat) (h : n ≤ 99) :
    digitsToNat [digitChar (n / 10 % 10), digitChar (n % 10)] = n :=
  digitsToNat_pad2 n h

theorem daysInMonth_le (y m : Nat) : daysInMonth y m ≤ 31 := by
  unfold daysInMonth
  split
  · split <;> omega
  · split <;> omega

theorem validYMD_bounds (y m d : Nat) (h : validYMD y m d = true) :
    1 ≤ m ∧ m ≤ 12 ∧ 1 ≤ d ∧ d ≤ 31 := by
  unfold validYMD at h
  simp at h
  have := daysInMonth_le y m
  omega

theorem parse_date_round (t : DateTimeUTC) (hy1 : 1000 ≤ t.year)
    (hy2 : t.year ≤ 9999) (hv : validYMD t.year t.month t.day = true) :
    parse_date (String.mk (dateFieldChars t)) = .ok (t.year, t.month, t.day) := by
  obtain ⟨-, hm, -, hd⟩ := validYMD_bounds _ _ _ hv
  show parse_date (String.mk [digitChar (t.year / 1000 % 10),
    digitChar (t.year / 100 % 10), digitChar (t.year / 10 % 10),
    digitChar (t.year % 10), digitChar (t.month / 10 % 10),
    digitChar (t.month % 10), digitChar (t.day / 10 % 10),
    digitChar (t.day % 10)]) = .ok (t.year, t.month, t.day)
  rw [parse_date]
  simp only []
  rw [if_pos (by simp [digitChar_digit])]
  rw [digitsToNat_pad4L _ (by omega), digitsToNat_pad2L t.month (by omega),
    digitsToNat_pad2L t.day (by omega)]
  rw [if_pos hv]

theorem parse_time_round (t : DateTimeUTC) (hh : t.hour ≤ 23)
    (hmi : t.minute ≤ 59) :
    parse_time (String.mk (timeFieldChars t)) = .ok (t.hour, t.minute) := by
  show parse_time (String.mk [digitChar (t.hour / 10 % 10),
    digitChar (t.hour % 10), ':', digitChar (t.minute / 10 % 10),
    digitChar (t.minute % 10)]) = .ok (t.hour, t.minute)
  rw [parse_time]
  simp only []
  rw [if_pos (by simp [digitChar_digit])]
  rw [digitsToNat_pad2L t.hour (by omega), digitsToNat_pad2L t.minute (by omega)]
  rw [if_pos ⟨hh, hmi⟩]

/-- The chrono `Duration` type bound: the minute count kept by the Rust
value always satisfies `|60000·m| ≤ i64::MAX` (enforced by
`Duration::try_minutes` wherever the program builds one). -/
@[reducible] def durRepresentable : ScdDuration → Prop
  | .Infinite => True
  | .Finite m => m * 60000 ≤ 2 ^ 63 - 1

theorem dur_round (d : ScdDuration) (hpos : ∀ mm, d = .Finite mm → 1 ≤ mm)
    (hrep : durRepresentable d) :
    ScdDuration.try_from (String.mk (durFmtChars d)) = .ok d := by
  cases d with
  | Infinite => decide
  | Finite m =>
    have hm : 1 ≤ m := hpos m rfl
    have hrep2 : m * 60000 ≤ 2 ^ 63 - 1 := hrep
    show ScdDuration.try_from (String.mk ((intRepr m).data)) = .ok (.Finite m)
    have hint : intRepr m = natRepr m.natAbs := by
      unfold intRepr
      rw [if_neg (by omega)]
    rw [show String.mk ((intRepr m).data) = intRepr m from rfl, hint]
    have habs : ((m.natAbs : Nat) : Int) = m := Int.natAbs_of_nonneg (by omega)
    unfold ScdDuration.try_from parse_duration
    rw [if_neg (natRepr_ne_dash m.natAbs)]
    rw [parseI64_natRepr m.natAbs (by omega)]
    simp only []
    rw [habs]
    unfold tryMinutes
    rw [if_pos ⟨by omega, by omega⟩]
    simp only []
    rw [if_neg (by omega : ¬ m < 1)]

theorem mode_round (m : SchedulingMode) :
    modeFromStr (String.mk (modeFmtChars m)) = some m := by
  cases m <;> decide

theorem padTo14_tsFmt (t : DateTimeUTC) :
    padTo14 (tsFmtChars t) = tsFmtChars t := by
  unfold padTo14
  rw [show (tsFmtChars t).length = 14 from by
    simp [tsFmtChars, dateFieldChars, timeFieldChars, pad4chars, pad2chars]]
  simp

theorem map_mk_data (l : List String) : (l.map String.data).map String.mk = l := by
  induction l with
  | nil => rfl
  | cons x xs ih =>
    show x :: (xs.map String.data).map String.mk = x :: xs
    rw [ih]

/-- The Rust `DateTime<Utc>` type invariant, which the Nat-record model
must state explicitly: a calendar-valid instant. -/
@[reducible] def tsWellFormed (t : DateTimeUTC) : Prop :=
  validYMD t.year t.month t.day = true ∧ t.hour ≤ 23 ∧ t.minute ≤ 59

/-- Claim C1: encoding then decoding is the identity on valid entries:
for every entry satisfying the constructor invariants, with a
calendar-valid timestamp, a duration representable in chrono, and
space-free task and kwarg tokens, decoding its formatted line yields the
entry back. -/
theorem c1_roundtrip (e : ScheduleLine)
    (hnew : ScheduleLine.new e.timestamp e.duration e.priority e.experiment
      e.scheduling_mode e.kwargs = .ok e)
    (hts : tsWellFormed e.timestamp)
    (hdur : durRepresentable e.duration)
    (hexp : ∀ c ∈ e.experiment.data, ¬ c = ' ')
    (hkw : ∀ kw ∈ e.kwargs, ∀ c ∈ kw.data, ¬ c = ' ') :
    ScheduleLine.try_from e.format = .ok e := by
  obtain ⟨-, hg1, hg2, hp20, -, hfin⟩ := new_ok_inv _ _ _ _ _ _ _ hnew
  obtain ⟨hy1, hy2⟩ := ts_year_bounds e.timestamp hg1 hg2
  obtain ⟨hv, hhour, hmin⟩ := hts
  have hsplit : splitSp (e.format).data =
      dateFieldChars e.timestamp :: timeFieldChars e.timestamp ::
      durFmtChars e.duration :: (natRepr e.priority).data ::
      e.experiment.data :: modeFmtChars e.scheduling_mode ::
      e.kwargs.map String.data := by
    show splitSp (padTo14 (tsFmtChars e.timestamp)
      ++ ' ' :: (durFmtChars e.duration
      ++ ' ' :: ((natRepr e.priority).data
      ++ ' ' :: (e.experiment.data
      ++ ' ' :: (modeFmtChars e.scheduling_mode
      ++ kwargsChars e.kwargs))))) = _
    rw [padTo14_tsFmt]
    rw [show tsFmtChars e.timestamp =
      dateFieldChars e.timestamp ++ ' ' :: timeFieldChars e.timestamp from rfl]
    rw [List.append_assoc, List.cons_append]
    rw [splitSp_append_space _ _ (dateFieldChars_no_space e.timestamp)]
    rw [splitSp_append_space _ _ (timeFieldChars_no_space e.timestamp)]
    rw [splitSp_append_space _ _ (durFmtChars_no_space e.duration)]
    rw [splitSp_append_space _ _ (natRepr_no_space e.priority)]
    rw [splitSp_append_space _ _ hexp]
    rw [splitSp_kwargs e.kwargs hkw _ (modeFmtChars_no_space e.scheduling_mode)]
  have hfields : lineFields e.format =
      String.mk (dateFieldChars e.timestamp) ::
      String.mk (timeFieldChars e.timestamp) ::
      String.mk (durFmtChars e.duration) :: natRepr e.priority ::
      e.experiment :: String.mk (modeFmtChars e.scheduling_mode) :: e.kwargs := by
    unfold lineFields
    rw [hsplit]
    simp only [List.map_cons]
    rw [map_mk_data]
  have hlen : ¬ ((lineFields e.format).length < 6) := by
    rw [hfields]
    simp
  have h0 : (lineFields e.format).getD 0 "" =
      String.mk (dateFieldChars e.timestamp) := by rw [hfields]; rfl
  have h1 : (lineFields e.format).getD 1 "" =
      String.mk (timeFieldChars e.timestamp) := by rw [hfields]; rfl
  have h2 : (lineFields e.format).getD 2 "" =
      String.mk (durFmtChars e.duration) := by rw [hfields]; rfl
  have h3 : (lineFields e.format).getD 3 "" = natRepr e.priority := by
    rw [hfields]; rfl
  have h4 : (lineFields e.format).getD 4 "" = e.experiment := by rw [hfields]; rfl
  have h5 : (lineFields e.format).getD 5 "" =
      String.mk (modeFmtChars e.scheduling_mode) := by rw [hfields]; rfl
  have h6 : (lineFields e.format).drop 6 = e.kwargs := by rw [hfields]; rfl
  unfold ScheduleLine.try_from
  rw [if_neg hlen, h0, h1, h2, h3, h4, h5, h6]
  rw [parse_date_round e.timestamp (by omega) (by omega) hv]
  simp only []
  rw [parse_time_round e.timestamp hhour hmin]
  simp only []
  show (match parseU8 (natRepr e.priority) with
    | none => _ | some priority => _) = _
  unfold parseU8
  rw [parseUnsigned_natRepr 255 e.priority (by omega)]
  simp only []
  rw [if_neg (by omega : ¬ e.priority > 20)]
  rw [mode_round]
  simp only []
  rw [dur_round e.duration hfin hdur]
  exact hnew

/-- An entry `ScheduleLine::new` accepts whose task contains a space. -/
def lineSpacedTask : ScheduleLine :=
  ⟨⟨2000, 1, 1, 0, 0⟩, .Finite 1, 0, "a b", .Common, []⟩

theorem c1_cex :
    ScheduleLine.new lineSpacedTask.timestamp lineSpacedTask.duration
      lineSpacedTask.priority lineSpacedTask.experiment
      lineSpacedTask.scheduling_mode lineSpacedTask.kwargs = .ok lineSpacedTask ∧
    ScheduleLine.try_from lineSpacedTask.format = .error (.InvalidMode "b") := by
  constructor <;> decide

/-- A representative entry: leap-day timestamp, finite duration,
non-zero priority, a kwarg. -/
def lineRt : ScheduleLine :=
  ⟨⟨2024, 2, 29, 23, 59⟩, .Finite 1440, 7, "full_fov", .Special, ["--embargo"]⟩

theorem c1_check : ScheduleLine.try_from lineRt.format = .ok lineRt :=
  c1_roundtrip lineRt (by decide) (by decide)
    (show (1440 : Int) * 60000 ≤ 2 ^ 63 - 1 by decide) (by decide) (by decide)
